import Mathlib

/-!
A verification development for the gogdl Android download engine.

The definitions below are a shallow embedding of the Python source:
`gogdl/dl/dl_utils.py`, `gogdl/dl/managers/v2.py`, `gogdl/api.py` and
`gogdl/dl/objects/v2.py`.  Byte strings are modelled as `List Nat`,
Python dictionaries as association lists or structures, HTTP traffic as
explicit response-valued functions, and the zlib decompressor as an
abstract partial function.  The theorems settle the specification's
claims against these definitions.
-/

namespace Gogdl

/-- Byte strings (Python `bytes`) are modelled as lists of naturals. -/
abbrev Bytes := List Nat

/-! ## String helpers modelling the Python primitives used by the source -/

/-- Fuel-bounded worker for Python `str.replace`: replaces all
non-overlapping occurrences of `pat` left to right.  The fuel is the
length of the subject string; each step consumes at least one character
whenever `pat` is nonempty, so that much fuel always suffices. -/
def replaceAll (pat rep : List Char) : Nat → List Char → List Char
  | _, [] => []
  | 0, l => l
  | fuel+1, c :: rest =>
    if pat ≠ [] ∧ pat.isPrefixOf (c :: rest) then
      rep ++ replaceAll pat rep fuel (List.drop pat.length (c :: rest))
    else
      c :: replaceAll pat rep fuel rest

/-- Python `s.replace(pat, rep)` (for the nonempty patterns the source uses). -/
def pyReplace (s pat rep : String) : String :=
  ⟨replaceAll pat.data rep.data s.data.length s.data⟩

/-- Contiguous-sublist test on character lists (worker for Python `in`). -/
def isSubListOf (needle : List Char) : List Char → Bool
  | [] => needle.isPrefixOf []
  | c :: rest => needle.isPrefixOf (c :: rest) || isSubListOf needle rest

/-- Python `needle in haystack` on strings. -/
def strContainsSub (hay needle : String) : Bool :=
  isSubListOf needle.data hay.data

/-- Two-argument posix `os.path.join`, as used by the source
(`os.sep` is `/` on Android). -/
def pathJoin (a b : String) : String :=
  if b.data.head? = some '/' then b
  else if a = "" then b
  else if a.data.getLast? = some '/' then a ++ b
  else a ++ "/" ++ b

/-- Python slice `s[a:b]` for `a ≤ b`. -/
def pySlice (s : String) (a b : Nat) : String :=
  ⟨(s.data.drop a).take (b - a)⟩

/-! ## ContentAddressing (gogdl/dl/dl_utils.py) -/

/-- `dl_utils.galaxy_path`: shard a content hash into
`hash[0:2]/hash[2:4]/hash` unless it already contains a `/`
(the source tests `manifest_hash.find("/") == -1`). -/
def galaxy_path (manifest_hash : String) : String :=
  if manifest_hash.data.contains '/' = false then
    ⟨manifest_hash.data.take 2⟩ ++ "/" ++ ⟨(manifest_hash.data.drop 2).take 2⟩
      ++ "/" ++ manifest_hash
  else manifest_hash

/-- `dl_utils.merge_url_with_params`: substitute each `\x7bkey\x7d` in the
template by the parameter's value, iterating parameters in order. -/
def merge_url_with_params (url_template : String)
    (parameters : List (String × String)) : String :=
  parameters.foldl
    (fun result_url kv => pyReplace result_url ("\x7b" ++ kv.1 ++ "\x7d") kv.2)
    url_template

/-- `v2.py` lines 234-236 (Fastly and other CDNs): extend the `path`
parameter with `"/" ++ galaxyChunkPath` before template substitution
(the `+=` branch of `_try_download_chunk_with_links`). -/
def updatePathOther (parameters : List (String × String)) (gp : String) :
    List (String × String) :=
  parameters.map (fun kv => if kv.1 = "path" then (kv.1, kv.2 ++ ("/" ++ gp)) else kv)

/-- `v2.py` lines 231-233 (akamai_edgecast_proxy): set the `path` parameter
to `f"{path}/{galaxyChunkPath}"` (an f-string producing the same string as
the other branch). -/
def updatePathAkamai (parameters : List (String × String)) (gp : String) :
    List (String × String) :=
  parameters.map (fun kv => if kv.1 = "path" then (kv.1, kv.2 ++ "/" ++ gp) else kv)

/-- Chunk URL construction for a template-shaped (`url_format`/`parameters`)
secure link, from `v2.py` lines 224-240. -/
def buildTemplateChunkUrl (endpoint_name : Option String) (url_format : String)
    (parameters : List (String × String)) (chunk_md5 : String) : String :=
  let gp := galaxy_path chunk_md5
  let ps :=
    if endpoint_name = some "akamai_edgecast_proxy" then
      updatePathAkamai parameters gp
    else
      updatePathOther parameters gp
  merge_url_with_params url_format ps

/-! ## ChunkFetcher (`V2Manager._try_download_chunk_with_links` and
`V2Manager._download_chunk`, gogdl/dl/managers/v2.py lines 215-330)

Secure links come in several shapes (lines 222-250): a dict with
`url_format`/`parameters`, a dict with `url`, an unrecognized dict
(skipped with `continue`, no request issued), or a plain string.
The HTTP layer is a function `fetch : Endpoint → Option HttpResponse`
where `none` models an exception raised during the attempt (caught at
lines 281-283 and answered with `continue`).  The zlib decompressor is
an abstract partial function `decomp`. -/

/-- The shapes of secure-link endpoint descriptors distinguished by
`_try_download_chunk_with_links`. -/
inductive Endpoint
  | template (url_format : String) (parameters : List (String × String))
      (endpoint_name : Option String)
  | direct (url : String)
  | unknownDict
  | plain (s : String)
deriving DecidableEq

/-- `True` for a dict-shaped link with neither `url_format`/`parameters`
nor `url`: the source logs and `continue`s without issuing a request. -/
def Endpoint.isUnknownDict : Endpoint → Bool
  | .unknownDict => true
  | _ => false

/-- An HTTP response: status code and payload bytes. -/
structure HttpResponse where
  status : Nat
  content : Bytes
deriving DecidableEq

/-- Lines 266-276: on HTTP 200 the payload is zlib-decompressed; if
decompression raises, the raw payload is used unchanged. -/
def processContent (decomp : Bytes → Option Bytes) (content : Bytes) : Bytes :=
  match decomp content with
  | some d => d
  | none => content

/-- `_try_download_chunk_with_links`, instrumented: walks the secure-link
list in order; unknown-shaped dicts are skipped without a request; an
exception (`fetch e = none`) or a non-200 status moves to the next link;
the first 200 stops the walk and yields the processed payload; if the
list is exhausted the result is `b''` (`[]`).  Returns the list of
endpoints for which a request was issued, paired with the result bytes. -/
def tryDownloadChunkWithLinks (decomp : Bytes → Option Bytes)
    (fetch : Endpoint → Option HttpResponse) :
    List Endpoint → List Endpoint × Bytes
  | [] => ([], [])
  | e :: rest =>
    if e.isUnknownDict then tryDownloadChunkWithLinks decomp fetch rest
    else
      match fetch e with
      | none =>
        let r := tryDownloadChunkWithLinks decomp fetch rest
        (e :: r.1, r.2)
      | some resp =>
        if resp.status = 200 then ([e], processContent decomp resp.content)
        else
          let r := tryDownloadChunkWithLinks decomp fetch rest
          (e :: r.1, r.2)

/-- `_download_chunk`, instrumented: empty hash returns `b''`;
otherwise the generation-2 list is tried first (when nonempty), a truthy
(nonempty) result is returned, else the generation-1 list is tried (when
nonempty), a truthy result is returned, else `b''`.  The first component
collects every endpoint for which a request was issued, in order. -/
def downloadChunk (decomp : Bytes → Option Bytes)
    (fetch : Endpoint → Option HttpResponse) (chunk_md5 : String)
    (gen2 gen1 : List Endpoint) : List Endpoint × Bytes :=
  if chunk_md5 = "" then ([], [])
  else
    let r2 := if gen2 ≠ [] then tryDownloadChunkWithLinks decomp fetch gen2 else ([], [])
    if r2.2 ≠ [] then r2
    else
      let r1 := if gen1 ≠ [] then tryDownloadChunkWithLinks decomp fetch gen1 else ([], [])
      if r1.2 ≠ [] then (r2.1 ++ r1.1, r1.2)
      else (r2.1 ++ r1.1, [])

/-! ## FileAssembler (`V2Manager._download_file`, v2.py lines 162-213)

The filesystem effects of one `_download_file` call are recorded as a
list of operations.  `move` is part of the operation vocabulary so that
temp-file-and-rename behaviour can be stated; the source never emits it. -/

/-- One filesystem side effect of `_download_file`. -/
inductive FsOp
  | makeParentDirs (filePath : String)
  | write (filePath : String) (data : Bytes)
  | chmod (filePath : String) (mode : Nat)
  | move (src dst : String)
deriving DecidableEq

/-- Recognizer for the rename/move operation. -/
def FsOp.isMove : FsOp → Bool
  | .move _ _ => true
  | _ => false

/-- One depot item (`file_info` dict), generic over the chunk descriptor
type `χ` (the source passes the chunk dicts straight to `_download_chunk`). -/
structure FileInfo (χ : Type) where
  path : String
  chunks : List χ
  flags : List String
deriving DecidableEq

/-- Lines 188-199: accumulate chunk bytes in listed order; a falsy
(empty) chunk result aborts the whole file (`return`, nothing written). -/
def assembleChunks {χ : Type} (fetch : χ → Bytes) : List χ → Option Bytes
  | [] => some []
  | c :: rest =>
    let d := fetch c
    if d = [] then none
    else
      match assembleChunks fetch rest with
      | none => none
      | some ds => some (d ++ ds)

/-- Line 170-172: skip the file when a nonempty `file_pattern` is set and
is not a substring of the file path. -/
def patternExcludes (file_pattern : Option String) (path : String) : Bool :=
  match file_pattern with
  | some p => (p != "") && !(strContainsSub path p)
  | none => false

/-- `_download_file`: empty path or pattern mismatch returns with no
effect; otherwise the parent directory is created, the chunks are
assembled in listed order, and only if all chunks are truthy is the
concatenation written (directly to the destination path), followed by
`chmod 0o755` when flagged executable. -/
def downloadFile {χ : Type} (file_pattern : Option String) (install_path : String)
    (fetch : χ → Bytes) (f : FileInfo χ) : List FsOp :=
  if f.path = "" then []
  else if patternExcludes file_pattern f.path then []
  else
    let full_path := pathJoin install_path (pyReplace f.path "\\" "/")
    let pre := [FsOp.makeParentDirs full_path]
    if f.chunks.isEmpty then pre
    else
      match assembleChunks fetch f.chunks with
      | none => pre
      | some data =>
        pre ++ [FsOp.write full_path data]
          ++ (if f.flags.contains "executable" then [FsOp.chmod full_path 493] else [])

/-! ## Depot processing and the download run
(`V2Manager._download_depot` lines 133-160, `V2Manager.download` lines 112-125) -/

/-- The possible outcomes of obtaining one depot's file manifest:
no `link`/`url` key, a raised fetch/decompress/parse error, a payload
without the `depot`/`items` keys, or a well-formed item list. -/
inductive DepotFetch (χ : Type)
  | noUrl
  | fetchFailed
  | malformedStructure
  | wellFormed (items : List (FileInfo χ))
deriving DecidableEq

/-- The `try`/`except` inside `_download_file` (lines 211-213): any
exception from the file body is caught and logged, producing no effects
and no propagated error. -/
def runFileCaught {χ : Type} (fileBody : FileInfo χ → Except String (List FsOp))
    (f : FileInfo χ) : List FsOp :=
  match fileBody f with
  | .ok ops => ops
  | .error _ => []

/-- `_download_depot`: a missing URL or a malformed payload only logs a
warning (no error); a raised manifest fetch error is re-raised (lines
158-160); a well-formed depot runs every item through the caught file
body — one item's failure never stops the following items. -/
def downloadDepot {χ : Type} (fileBody : FileInfo χ → Except String (List FsOp)) :
    DepotFetch χ → Except String (List (List FsOp))
  | .noUrl => .ok []
  | .fetchFailed => .error "Failed to download depot"
  | .malformedStructure => .ok []
  | .wellFormed items => .ok (items.map (runFileCaught fileBody))

/-- `V2Manager.download` lines 112-125: all depots are processed and any
depot error is re-raised, failing the whole run. -/
def downloadAllDepots {χ : Type} (fileBody : FileInfo χ → Except String (List FsOp)) :
    List (DepotFetch χ) → Except String (List (List (List FsOp)))
  | [] => .ok []
  | d :: rest =>
    match downloadDepot fileBody d with
    | .error e => .error e
    | .ok ops =>
      match downloadAllDepots fileBody rest with
      | .error e => .error e
      | .ok others => .ok (ops :: others)

/-! ## Depot enqueueing and language compatibility
(`V2Manager.download` lines 106-117, `objects/v2.py Depot.check_language`) -/

/-- One entry of the build manifest's `depots` list as `V2Manager.download`
sees it. -/
structure DepotEntry where
  manifest : Option String
  productId : Option String
  languages : List String
  link : Option String
deriving DecidableEq

/-- `objects/v2.py` `Depot.check_language`: true iff some declared
language is `"*"` or equals the target language. -/
def check_language : List String → String → Bool
  | [], _ => false
  | lang :: rest, target =>
    if lang = "*" || target = lang then true else check_language rest target

/-- v2.py lines 106-110: every depot with a `manifest` key gets its meta
`link` assigned from the sharded manifest hash. -/
def assignDepotLinks (depot_files : List DepotEntry) : List DepotEntry :=
  depot_files.map fun d =>
    match d.manifest with
    | some h =>
      { d with
        link := some ("https://gog-cdn-fastly.gog.com/content-system/v2/meta/"
          ++ galaxy_path h) }
    | none => d

/-- v2.py lines 113-117: the list of depots submitted to the executor —
every entry of `depot_files`, with no compatibility filtering of any kind. -/
def depotsToDownload (depot_files : List DepotEntry) : List DepotEntry :=
  assignDepotLinks depot_files

/-! ## Build selection (`V2Manager.download` line 41) -/

/-- One entry of the catalog's builds list. -/
structure BuildItem where
  branch : Option String
  build_id : String
deriving DecidableEq

/-- Python truthiness test `not b.get('branch')`: the branch key is
missing/None or the empty string. -/
def branchFalsy (b : BuildItem) : Bool :=
  match b.branch with
  | none => true
  | some s => s == ""

/-- Line 41: `next((b for b in items if not b.get('branch')), items[0])`.
The function receives no requested-branch argument; `arguments.branch`
(stored by `AndroidManager.__init__`) is never consulted. -/
def selectBuild (items : List BuildItem) : Option BuildItem :=
  match items.find? branchFalsy with
  | some b => some b
  | none => items.head?

/-! ## Secure-link resolution with retry
(`dl_utils.get_secure_link` lines 77-105 and `ApiHandler.get_secure_link`
api.py lines 82-107)

Both functions issue an authenticated GET and, on a non-200 status or a
raised exception, sleep 0.2 s and call themselves again with the same
`path`, `game_id`, `generation` and `root`.  The `dl_utils` version
passes five positional arguments to the recursive call, so its `logger`
keyword falls back to `None`; on the next failure `logger.warning` /
`logger.error` then raise `AttributeError`.  The models are fuel-indexed
(a `none` result means the computation is still running after `fuel`
call frames) and return the event trace, the next unused attempt index
(= number of HTTP requests issued when starting from attempt 0) and the
outcome: `some urls` for success, `none` for an uncaught exception. -/

/-- The request parameters of one secure-link resolution. -/
structure SLRequest where
  path : String
  game_id : String
  generation : Nat
  root : Option String
deriving DecidableEq

/-- The URL built by both versions from the request parameters. -/
def secureLinkUrl (r : SLRequest) : String :=
  let base :=
    if r.generation = 2 then
      "https://content-system.gog.com/products/" ++ r.game_id
        ++ "/secure_link?_version=2&generation=2&path=" ++ r.path
    else if r.generation = 1 then
      "https://content-system.gog.com/products/" ++ r.game_id
        ++ "/secure_link?_version=2&type=depot&path=" ++ r.path
    else ""
  match r.root with
  | some root => base ++ "&root=" ++ root
  | none => base

/-- The server's behaviour on the i-th HTTP attempt. -/
inductive SLResp
  | ok (urls : List String)
  | non200 (code : Nat)
  | exn
deriving DecidableEq

/-- Observable events of a secure-link resolution. -/
inductive SLEvent
  | request (url : String)
  | sleepMs (ms : Nat)
deriving DecidableEq

/-- `dl_utils.get_secure_link`.  `hasLogger` models whether the `logger`
parameter is non-None; every recursive call of the source passes five
positional arguments, dropping it to `None`.  With a logger: a non-200
logs, sleeps 0.2 s and recurses inside the `try` block (a crash of the
recursion is caught by this frame's `except`, which logs, sleeps and
recurses once more, unprotected); an exception path logs, sleeps and
recurses unprotected.  Without a logger, `logger.warning`/`logger.error`
raise `AttributeError`, so the frame terminates with an uncaught
exception (outcome `none`) after its single HTTP attempt. -/
def get_secure_link_dl (resp : Nat → SLResp) (req : SLRequest) :
    Bool → Nat → Nat → Option (List SLEvent × Nat × Option (List String))
  | _, _, 0 => none
  | hasLogger, attempt, fuel+1 =>
    let ev := SLEvent.request (secureLinkUrl req)
    match resp attempt with
    | .ok urls => some ([ev], attempt+1, some urls)
    | .non200 _ =>
      if hasLogger then
        match get_secure_link_dl resp req false (attempt+1) fuel with
        | none => none
        | some (tr, a, some urls) => some (ev :: .sleepMs 200 :: tr, a, some urls)
        | some (tr, a, none) =>
          match get_secure_link_dl resp req false a fuel with
          | none => none
          | some (tr2, a2, out) =>
            some (ev :: .sleepMs 200 :: (tr ++ .sleepMs 200 :: tr2), a2, out)
      else
        some ([ev], attempt+1, none)
    | .exn =>
      if hasLogger then
        match get_secure_link_dl resp req false (attempt+1) fuel with
        | none => none
        | some (tr, a, out) => some (ev :: .sleepMs 200 :: tr, a, out)
      else
        some ([ev], attempt+1, none)

/-- `ApiHandler.get_secure_link` (api.py lines 82-107): identical retry
structure, but the recursive call is a bound method so `self.logger`
is always available — every failure sleeps 0.2 s and retries the same
request, with no ceiling. -/
def get_secure_link_api (resp : Nat → SLResp) (req : SLRequest) :
    Nat → Nat → Option (List SLEvent × Nat × Option (List String))
  | _, 0 => none
  | attempt, fuel+1 =>
    let ev := SLEvent.request (secureLinkUrl req)
    match resp attempt with
    | .ok urls => some ([ev], attempt+1, some urls)
    | .non200 _ =>
      match get_secure_link_api resp req (attempt+1) fuel with
      | none => none
      | some (tr, a, out) => some (ev :: .sleepMs 200 :: tr, a, out)
    | .exn =>
      match get_secure_link_api resp req (attempt+1) fuel with
      | none => none
      | some (tr, a, out) => some (ev :: .sleepMs 200 :: tr, a, out)

/-! ## Request headers (api.py lines 15-24, v2.py lines 254-263) -/

/-- The state a `V2Manager` closes over when fetching a chunk; the
catalog session's bearer token is part of it. -/
structure ManagerState where
  access_token : Option String
deriving DecidableEq

/-- `ApiHandler.__init__`: the catalog session's headers — a user agent
plus, when credentials exist, the Authorization bearer token. -/
def apiSessionHeaders (credentials_token : Option String) : List (String × String) :=
  [("User-Agent", "gogdl/1.0.0 (Android GameNative)")] ++
    (match credentials_token with
     | some t => [("Authorization", "Bearer " ++ t)]
     | none => [])

/-- v2.py lines 254-263: the chunk request uses a freshly created
`requests.Session` whose headers are exactly the CDN user agent; the
manager state (and its bearer token) is in scope but unused. -/
def cdnChunkHeaders (_st : ManagerState) : List (String × String) :=
  [("User-Agent", "GOGGalaxyClient/2.0.45.61 (Windows_x86_64)")]

/-! ## Concrete fixtures for counterexamples and witnesses -/

/-- zlib model for the C1 counterexample: `[1]` inflates to the empty
byte string; everything else fails to inflate. -/
def c1decomp : Bytes → Option Bytes := fun c => if c = [1] then some [] else none

/-- A generation-2 endpoint for the C1 counterexample. -/
def c1gen2 : Endpoint := .direct "https://gen2.example"

/-- A generation-1 endpoint for the C1 counterexample. -/
def c1gen1 : Endpoint := .direct "https://gen1.example"

/-- CDN behaviour for the C1 counterexample: the generation-2 endpoint
answers 200 with a payload inflating to zero bytes; the generation-1
endpoint answers 200 with payload `[7]` (which stays raw). -/
def c1fetch : Endpoint → Option HttpResponse := fun e =>
  if e = c1gen2 then some ⟨200, [1]⟩
  else if e = c1gen1 then some ⟨200, [7]⟩
  else none

/-- Endpoint A for the C1 witness ([A, B] with A a 404). -/
def c1wA : Endpoint := .direct "https://a.example"

/-- Endpoint B for the C1 witness (a 200 with nonempty payload). -/
def c1wB : Endpoint := .direct "https://b.example"

/-- CDN behaviour for the C1 witness. -/
def c1wfetch : Endpoint → Option HttpResponse := fun e =>
  if e = c1wA then some ⟨404, []⟩
  else if e = c1wB then some ⟨200, [3, 4]⟩
  else none

/-- zlib model for the C1 witness: `[3, 4]` inflates to `[9]`. -/
def c1wdecomp : Bytes → Option Bytes := fun c => if c = [3, 4] then some [9] else none

/-- Chunk results for the C2 counterexample: chunk `0` yields `[1, 2]`. -/
def c2fetch : Nat → Bytes := fun c => if c = 0 then [1, 2] else []

/-- The file of the C2 counterexample: one chunk, all fetches succeed. -/
def c2file : FileInfo Nat := ⟨"a.bin", [0], []⟩

/-- Chunk results for the C2 witness: chunk `0` yields `[1]`, chunk `1`
yields `[2, 3]`, chunk `2` yields nothing. -/
def c2wfetch : Nat → Bytes :=
  fun c => if c = 0 then [1] else if c = 1 then [2, 3] else []

/-- Two-chunk executable file for the C2 witness. -/
def c2wfile : FileInfo Nat := ⟨"sub\\b.bin", [0, 1], ["executable"]⟩

/-- A file containing a failing chunk, for the C2 witness. -/
def c2wbad : FileInfo Nat := ⟨"c.bin", [0, 2], []⟩

/-- The German-only depot of the C3 counterexample. -/
def c3depot : DepotEntry := ⟨some "abcd1234", some "prod1", ["de-DE"], none⟩

/-- First catalog entry for the C4 counterexample: branch `beta`. -/
def c4b0 : BuildItem := ⟨some "beta", "b0"⟩

/-- Second catalog entry for the C4 counterexample: no branch. -/
def c4b1 : BuildItem := ⟨none, "b1"⟩

/-- The secure-link request of the C5 fixtures. -/
def c5req : SLRequest := ⟨"/", "12345", 2, none⟩

/-- A server that answers HTTP 500 on every attempt. -/
def c5resp : Nat → SLResp := fun _ => .non200 500

/-- A server that fails attempts 0 and 1 and succeeds on attempt 2. -/
def c5wresp : Nat → SLResp :=
  fun i => if i < 2 then .non200 500 else .ok ["https://cdn.example"]

/-- File body for the C6 witness: the file named `bad` raises, others
produce one write. -/
def c6body : FileInfo Nat → Except String (List FsOp) :=
  fun f => if f.path = "bad" then .error "boom" else .ok [FsOp.write f.path [1]]

/-- A file whose body succeeds, for the C6 witness. -/
def c6good : FileInfo Nat := ⟨"ok.bin", [], []⟩

/-- A file whose body raises, for the C6 witness. -/
def c6bad : FileInfo Nat := ⟨"bad", [], []⟩

/-- Chunk results for the C10 witness file: every chunk fetch fails. -/
def c10cfetch : Nat → Bytes := fun _ => []

/-- One-chunk file for the C10 witness. -/
def c10file : FileInfo Nat := ⟨"z.bin", [0], []⟩

/-- zlib model for the C10 witness: `[5]` inflates to the empty string. -/
def c10decomp : Bytes → Option Bytes := fun c => if c = [5] then some [] else none

/-- Endpoint answering 200 with a payload inflating to zero bytes. -/
def c10e200 : Endpoint := .direct "https://e.example"

/-- Endpoint answering 404. -/
def c10e404 : Endpoint := .direct "https://f.example"

/-- CDN behaviour for the C10 witness. -/
def c10fetch : Endpoint → Option HttpResponse := fun e =>
  if e = c10e200 then some ⟨200, [5]⟩
  else if e = c10e404 then some ⟨404, []⟩
  else none

/-! ## Claim C1: chunk fetch fallback order -/

/-- Helper: the endpoints for which a request was issued form an
order-preserving, duplicate-free selection (a sublist) of the
secure-link list. -/
theorem tryDownload_attempts_sublist (decomp : Bytes → Option Bytes)
    (fetch : Endpoint → Option HttpResponse) (links : List Endpoint) :
    List.Sublist (tryDownloadChunkWithLinks decomp fetch links).1 links := by
  induction links with
  | nil => simp [tryDownloadChunkWithLinks]
  | cons e rest ih =>
    unfold tryDownloadChunkWithLinks
    by_cases hu : e.isUnknownDict
    · simpa [hu] using ih.cons e
    · simp only [hu, Bool.false_eq_true, if_false]
      cases hf : fetch e with
      | none => simpa using ih.cons₂ e
      | some resp =>
        by_cases hs : resp.status = 200
        · simp [hs]
        · simpa [hs] using ih.cons₂ e

/-- C1 counterexample: the claim states that on the first HTTP 200
response the fetcher returns that payload and attempts no further
endpoints, and that generation-1 endpoints are attempted only after
every generation-2 endpoint has *failed*.  Here the single generation-2
endpoint answers HTTP 200 with a payload that inflates to zero bytes,
yet the generation-1 endpoint is attempted afterwards (and its payload
is returned), because `_download_chunk` tests truthiness of the returned
bytes, not HTTP success. -/
theorem c1_chunk_fetch_counterexample :
    c1fetch c1gen2 = some ⟨200, [1]⟩ ∧
    processContent c1decomp [1] = [] ∧
    downloadChunk c1decomp c1fetch "aabbccdd" [c1gen2] [c1gen1]
      = ([c1gen2, c1gen1], [7]) := by
  refine ⟨by decide, by decide, by decide⟩

/-- C1 amended: endpoints are attempted in list order, each at most once
(the issued requests form a sublist of the candidate list); an exception
or a non-200 response moves to the next endpoint without retrying the
same one; the first HTTP 200 stops the walk of that endpoint list and
yields the zlib-inflated payload (or the raw payload if inflation
fails); and the generation-1 list is attempted only when the
generation-2 pass produced no bytes — i.e. every generation-2 endpoint
failed, or a 200 payload inflated to the empty byte string, which
`_download_chunk` treats as failure.  For an endpoint list `[A, B]`
where A answers 404 and B answers 200, the result is B's processed
payload and exactly A and B are attempted, whatever follows B. -/
theorem c1_chunk_fetch_amended (decomp : Bytes → Option Bytes)
    (fetch : Endpoint → Option HttpResponse) :
    (∀ links, List.Sublist (tryDownloadChunkWithLinks decomp fetch links).1 links) ∧
    (∀ e rest resp, e.isUnknownDict = false → fetch e = some resp →
      resp.status = 200 →
      tryDownloadChunkWithLinks decomp fetch (e :: rest)
        = ([e], processContent decomp resp.content)) ∧
    (∀ e rest resp, e.isUnknownDict = false → fetch e = some resp →
      resp.status ≠ 200 →
      tryDownloadChunkWithLinks decomp fetch (e :: rest)
        = (e :: (tryDownloadChunkWithLinks decomp fetch rest).1,
           (tryDownloadChunkWithLinks decomp fetch rest).2)) ∧
    (∀ e rest, e.isUnknownDict = false → fetch e = none →
      tryDownloadChunkWithLinks decomp fetch (e :: rest)
        = (e :: (tryDownloadChunkWithLinks decomp fetch rest).1,
           (tryDownloadChunkWithLinks decomp fetch rest).2)) ∧
    (∀ chunk_md5 gen2 gen1, chunk_md5 ≠ "" →
      (tryDownloadChunkWithLinks decomp fetch gen2).2 ≠ [] →
      downloadChunk decomp fetch chunk_md5 gen2 gen1
        = tryDownloadChunkWithLinks decomp fetch gen2) ∧
    (∀ A B rest rA rB, A.isUnknownDict = false → B.isUnknownDict = false →
      fetch A = some rA → rA.status = 404 → fetch B = some rB →
      rB.status = 200 →
      tryDownloadChunkWithLinks decomp fetch (A :: B :: rest)
        = ([A, B], processContent decomp rB.content)) := by
  refine ⟨tryDownload_attempts_sublist decomp fetch, ?_, ?_, ?_, ?_, ?_⟩
  · intro e rest resp hu hf hs
    unfold tryDownloadChunkWithLinks
    simp [hu, hf, hs]
  · intro e rest resp hu hf hs
    conv_lhs => unfold tryDownloadChunkWithLinks
    simp [hu, hf, hs]
  · intro e rest hu hf
    conv_lhs => unfold tryDownloadChunkWithLinks
    simp [hu, hf]
  · intro chunk_md5 gen2 gen1 hmd5 h2
    cases gen2 with
    | nil => simp [tryDownloadChunkWithLinks] at h2
    | cons g gs =>
      unfold downloadChunk
      simp [hmd5, h2]
  · intro A B rest rA rB huA huB hfA hsA hfB hsB
    conv_lhs => unfold tryDownloadChunkWithLinks
    conv_lhs => unfold tryDownloadChunkWithLinks
    simp [huA, huB, hfA, hfB, hsA, hsB]

/-- Witness for C1 (amended) at the concrete `[A, B]` instance: A answers
404, B answers 200 with payload `[3, 4]` inflating to `[9]`; the fetch
returns `[9]` having attempted exactly A then B, and the composed
`_download_chunk` returns the same without touching generation 1. -/
theorem c1_chunk_fetch_amended_witness :
    tryDownloadChunkWithLinks c1wdecomp c1wfetch [c1wA, c1wB] = ([c1wA, c1wB], [9]) ∧
    downloadChunk c1wdecomp c1wfetch "ff00" [c1wA, c1wB] [] = ([c1wA, c1wB], [9]) := by
  have h := c1_chunk_fetch_amended c1wdecomp c1wfetch
  constructor
  · have h6 := h.2.2.2.2.2 c1wA c1wB [] ⟨404, []⟩ ⟨200, [3, 4]⟩
      (by decide) (by decide) (by decide) (by decide) (by decide) (by decide)
    rw [h6]; decide
  · have h5 := h.2.2.2.2.1 "ff00" [c1wA, c1wB] [] (by decide) (by decide)
    rw [h5]; decide

/-! ## Claim C2: ordered assembly, no partial file -/

/-- Helper: when every chunk result is truthy, assembly returns the
concatenation of the chunk results in listed order. -/
theorem assembleChunks_all_nonempty {χ : Type} (fetch : χ → Bytes)
    (chunks : List χ) (h : ∀ c ∈ chunks, fetch c ≠ []) :
    assembleChunks fetch chunks = some (chunks.map fetch).flatten := by
  induction chunks with
  | nil => simp [assembleChunks]
  | cons c rest ih =>
    have hc : fetch c ≠ [] := h c (by simp)
    have hr := ih (fun x hx => h x (by simp [hx]))
    unfold assembleChunks
    simp [hc, hr]

/-- Helper: a falsy chunk result anywhere makes assembly fail. -/
theorem assembleChunks_failed {χ : Type} (fetch : χ → Bytes)
    (chunks : List χ) (h : ∃ c ∈ chunks, fetch c = []) :
    assembleChunks fetch chunks = none := by
  induction chunks with
  | nil => simp at h
  | cons c rest ih =>
    unfold assembleChunks
    rcases h with ⟨x, hx, hfx⟩
    rcases List.mem_cons.mp hx with h1 | h2
    · subst h1; simp [hfx]
    · by_cases hc : fetch c = []
      · simp [hc]
      · simp [hc, ih ⟨x, h2, hfx⟩]

/-- C2 counterexample: the claim's parenthesis says writing goes to a
temporary location and the file is moved into place once all chunks are
present.  For a one-chunk file whose fetch succeeds, the emitted
filesystem operations are a parent-directory creation and a single write
directly at the destination path `/games/a.bin`; no move/rename
operation occurs anywhere in the trace. -/
theorem c2_file_assembly_counterexample :
    downloadFile none "/games" c2fetch c2file
      = [FsOp.makeParentDirs "/games/a.bin", FsOp.write "/games/a.bin" [1, 2]] ∧
    List.all (downloadFile none "/games" c2fetch c2file)
      (fun op => !op.isMove) = true := by
  refine ⟨by decide, by decide⟩

/-- C2 amended: when the path is nonempty, the chunk list nonempty, and
every chunk fetch succeeds (returns truthy bytes), the single write is
the concatenation of the chunk bytes in the exact listed order, placed
directly at the destination path (plus a chmod when flagged executable);
when any chunk fails, no write (and no move) is emitted, so nothing is
committed at the destination; and no run ever emits a move/rename — the
file is accumulated in memory, not assembled in a temporary file. -/
theorem c2_file_assembly_amended {χ : Type} (fetch : χ → Bytes)
    (install_path : String) (f : FileInfo χ) :
    (f.path ≠ "" → f.chunks ≠ [] → (∀ c ∈ f.chunks, fetch c ≠ []) →
      downloadFile none install_path fetch f
        = [FsOp.makeParentDirs (pathJoin install_path (pyReplace f.path "\\" "/")),
           FsOp.write (pathJoin install_path (pyReplace f.path "\\" "/"))
             (f.chunks.map fetch).flatten]
          ++ (if f.flags.contains "executable"
              then [FsOp.chmod (pathJoin install_path (pyReplace f.path "\\" "/")) 493]
              else [])) ∧
    ((∃ c ∈ f.chunks, fetch c = []) →
      ∀ op ∈ downloadFile none install_path fetch f,
        op.isMove = false ∧ ∀ p d, op ≠ FsOp.write p d) ∧
    (∀ op ∈ downloadFile none install_path fetch f, op.isMove = false) := by
  refine ⟨?_, ?_, ?_⟩
  · intro hp hc hall
    rcases List.exists_cons_of_ne_nil hc with ⟨c, cs, hcs⟩
    unfold downloadFile
    rw [if_neg hp]
    rw [assembleChunks_all_nonempty fetch f.chunks hall]
    simp [patternExcludes, hcs]
  · intro hfail op hop
    rcases hfail with ⟨x, hx, hfx⟩
    have hne : f.chunks ≠ [] := by
      intro hnil; rw [hnil] at hx; simp at hx
    rcases List.exists_cons_of_ne_nil hne with ⟨c, cs, hcs⟩
    unfold downloadFile at hop
    rw [assembleChunks_failed fetch f.chunks ⟨x, hx, hfx⟩] at hop
    by_cases hp : f.path = ""
    · rw [if_pos hp] at hop; simp at hop
    · rw [if_neg hp] at hop
      simp [patternExcludes, hcs] at hop
      subst hop
      exact ⟨rfl, fun p d => by simp⟩
  · intro op hop
    unfold downloadFile at hop
    by_cases hp : f.path = ""
    · rw [if_pos hp] at hop; simp at hop
    · rw [if_neg hp] at hop
      simp only [patternExcludes, if_false] at hop
      cases hchunks : f.chunks with
      | nil => rw [hchunks] at hop; simp at hop; subst hop; rfl
      | cons c cs =>
        rw [hchunks] at hop
        cases hasm : assembleChunks fetch (c :: cs) with
        | none => simp [hasm] at hop; subst hop; rfl
        | some data =>
          simp [hasm] at hop
          rcases hop with h1 | h2 | h3
          · subst h1; rfl
          · subst h2; rfl
          · rcases h3 with ⟨hflag, hop3⟩
            subst hop3; rfl

/-- Witness for C2 (amended) at concrete inputs: a two-chunk executable
file assembles to the in-order concatenation written at the destination,
and the file containing a failing chunk never gets a write. -/
theorem c2_file_assembly_amended_witness :
    downloadFile none "/g" c2wfetch c2wfile
      = [FsOp.makeParentDirs "/g/sub/b.bin", FsOp.write "/g/sub/b.bin" [1, 2, 3],
         FsOp.chmod "/g/sub/b.bin" 493] ∧
    FsOp.write "/g/c.bin" [1] ∉ downloadFile none "/g" c2wfetch c2wbad := by
  constructor
  · have e1 := (c2_file_assembly_amended c2wfetch "/g" c2wfile).1
      (by decide) (by decide) (by decide)
    rw [e1]; decide
  · intro hmem
    exact ((c2_file_assembly_amended c2wfetch "/g" c2wbad).2.1
      ⟨2, by decide, by decide⟩ _ hmem).2 "/g/c.bin" [1] rfl

/-! ## Claim C3: depot language filtering -/

/-- C3 counterexample: a depot declaring only `de-DE` is incompatible
with target language `en-US` under `Depot.check_language`, yet
`V2Manager.download` still enqueues it (the submitted list contains the
depot, with its meta link assigned) — no language filtering happens
anywhere on the V2 download path. -/
theorem c3_language_filter_counterexample :
    check_language c3depot.languages "en-US" = false ∧
    depotsToDownload [c3depot]
      = [⟨some "abcd1234", some "prod1", ["de-DE"],
          some "https://gog-cdn-fastly.gog.com/content-system/v2/meta/ab/cd/abcd1234"⟩] := by
  refine ⟨by decide, by decide⟩

/-- C3 amended: the V2 download path applies no language or bitness
filtering at all — every depot of the build manifest is enqueued, in
order, whatever its declared languages (the submitted list has the same
length and the same language sets, entry by entry).  The language
predicate `Depot.check_language` (true iff the declared set contains
`"*"` or the target language) exists in `objects/v2.py` but is only
called from `Build.get_info`, which `V2Manager.download` never uses. -/
theorem c3_language_filter_amended (depot_files : List DepotEntry) (target : String) :
    (depotsToDownload depot_files).length = depot_files.length ∧
    (depotsToDownload depot_files).map DepotEntry.languages
      = depot_files.map DepotEntry.languages ∧
    (∀ langs, check_language langs target = true ↔ "*" ∈ langs ∨ target ∈ langs) := by
  refine ⟨?_, ?_, ?_⟩
  · simp [depotsToDownload, assignDepotLinks]
  · unfold depotsToDownload assignDepotLinks
    induction depot_files with
    | nil => simp
    | cons d rest ih =>
      simp only [List.map_cons, List.cons.injEq]
      refine ⟨?_, ih⟩
      cases hm : d.manifest <;> simp
  · intro langs
    induction langs with
    | nil => simp [check_language]
    | cons lang rest ih =>
      unfold check_language
      by_cases h1 : lang = "*"
      · simp [h1]
      · by_cases h2 : target = lang
        · simp [h1, h2]
        · have h1s : "*" ≠ lang := fun hh => h1 hh.symm
          simp [h1, h1s, h2, ih]

/-- Witness for C3 (amended) at concrete languages. -/
theorem c3_language_filter_amended_witness :
    check_language ["de-DE"] "en-US" = false ∧
    check_language ["*"] "en-US" = true := by
  have h := (c3_language_filter_amended [] "en-US").2.2
  constructor
  · cases hb : check_language ["de-DE"] "en-US" with
    | false => rfl
    | true => rcases (h ["de-DE"]).mp hb with hm | hm <;> simp at hm
  · exact (h ["*"]).mpr (Or.inl (by simp))

/-! ## Claim C4: build selection -/

/-- C4 counterexample: with the catalog list `[{branch: beta}, {branch:
none}]` and requested branch `beta`, the claim requires the first item
whose branch equals `beta` (the first item); the code's selection —
which never consults a requested branch — returns the second item, the
first with a falsy branch. -/
theorem c4_build_selection_counterexample :
    selectBuild [c4b0, c4b1] = some c4b1 ∧
    List.find? (fun b => b.branch == some "beta") [c4b0, c4b1] = some c4b0 ∧
    c4b0 ≠ c4b1 := by
  refine ⟨by decide, by decide, by decide⟩

/-- C4 amended: build selection ignores any requested branch.  It always
returns the first item whose branch is unset/empty; if no such item
exists it falls back to the first item of the list.  No other sorting is
applied. -/
theorem c4_build_selection_amended :
    (∀ (l1 l2 : List BuildItem) (b : BuildItem),
      (∀ x ∈ l1, branchFalsy x = false) → branchFalsy b = true →
      selectBuild (l1 ++ b :: l2) = some b) ∧
    (∀ items : List BuildItem,
      (∀ x ∈ items, branchFalsy x = false) → selectBuild items = items.head?) := by
  constructor
  · intro l1 l2 b h1 hb
    have hfind : ∀ l : List BuildItem, (∀ x ∈ l, branchFalsy x = false) →
        List.find? branchFalsy (l ++ b :: l2) = some b := by
      intro l
      induction l with
      | nil => intro _; rw [List.nil_append, List.find?_cons_of_pos _ hb]
      | cons x xs ih =>
        intro hh
        rw [List.cons_append, List.find?_cons_of_neg _ (by simp [hh x (by simp)])]
        exact ih (fun y hy => hh y (by simp [hy]))
    unfold selectBuild
    rw [hfind l1 h1]
  · intro items h
    unfold selectBuild
    have hn : items.find? branchFalsy = none :=
      List.find?_eq_none.mpr (fun x hx => by simp [h x hx])
    rw [hn]

/-- Witness for C4 (amended) at concrete inputs. -/
theorem c4_build_selection_amended_witness :
    selectBuild [c4b0, c4b1] = some c4b1 ∧ selectBuild [c4b0] = some c4b0 := by
  constructor
  · have h := c4_build_selection_amended.1 [c4b0] [] c4b1 (by decide) (by decide)
    simpa using h
  · have h := c4_build_selection_amended.2 [c4b0] (by decide)
    simpa using h

/-! ## Claim C5: secure-link retry behaviour -/

/-- C5 counterexample: the claim says every consecutive failure is
retried after ≈200 ms with no retry-count ceiling.  For
`dl_utils.get_secure_link` (the variant the V2 manager calls) with a
server answering HTTP 500 forever, the run issues exactly three
requests — the recursive calls drop the `logger` argument, so the
second and third failures raise `AttributeError` inside the handlers —
and terminates with an uncaught exception (outcome `none`), independent
of available fuel, instead of retrying without ceiling. -/
theorem c5_secure_link_retry_counterexample :
    get_secure_link_dl c5resp c5req true 0 10
      = some ([SLEvent.request (secureLinkUrl c5req), SLEvent.sleepMs 200,
               SLEvent.request (secureLinkUrl c5req), SLEvent.sleepMs 200,
               SLEvent.request (secureLinkUrl c5req)], 3, none) ∧
    get_secure_link_dl c5resp c5req true 0 50
      = get_secure_link_dl c5resp c5req true 0 10 := by
  refine ⟨by decide, by decide⟩

/-- C5 amended: `ApiHandler.get_secure_link` retries the same request
(same product id, path, generation and root — hence the same URL)
unconditionally after a fixed 200 ms sleep, with no retry ceiling: under
persistent failure no amount of fuel makes it return (it never
terminates), every trace event is either a request for the one URL or a
200 ms sleep, and it never ends in an uncaught exception.
`dl_utils.get_secure_link`, however, drops its `logger` argument on
recursion, so under persistent failure it crashes with `AttributeError`
after at most three HTTP attempts. -/
theorem c5_secure_link_retry_amended :
    (∀ (resp : Nat → SLResp) (req : SLRequest),
      (∀ i urls, resp i ≠ SLResp.ok urls) →
      ∀ attempt fuel, get_secure_link_api resp req attempt fuel = none) ∧
    (∀ (resp : Nat → SLResp) (req : SLRequest) attempt fuel tr a out,
      get_secure_link_api resp req attempt fuel = some (tr, a, out) →
      ∀ e ∈ tr, e = SLEvent.request (secureLinkUrl req) ∨ e = SLEvent.sleepMs 200) ∧
    (∀ (resp : Nat → SLResp) (req : SLRequest) attempt fuel tr a out,
      get_secure_link_api resp req attempt fuel = some (tr, a, out) →
      ∃ urls, out = some urls) ∧
    (∀ (resp : Nat → SLResp) (req : SLRequest),
      (∀ i urls, resp i ≠ SLResp.ok urls) →
      ∀ fuel, 2 ≤ fuel →
      ∃ tr a, get_secure_link_dl resp req true 0 fuel = some (tr, a, none) ∧ a ≤ 3) := by
  refine ⟨?_, ?_, ?_, ?_⟩
  · intro resp req h attempt fuel
    induction fuel generalizing attempt with
    | zero => rfl
    | succ f ih =>
      unfold get_secure_link_api
      cases hr : resp attempt with
      | ok urls => exact absurd hr (h attempt urls)
      | non200 code => simp [ih]
      | exn => simp [ih]
  · intro resp req attempt fuel tr a out heq e he
    induction fuel generalizing attempt tr a out with
    | zero => simp [get_secure_link_api] at heq
    | succ f ih =>
      unfold get_secure_link_api at heq
      cases hr : resp attempt with
      | ok urls =>
        rw [hr] at heq
        simp only [Option.some.injEq, Prod.mk.injEq] at heq
        rcases heq with ⟨htr, _, _⟩
        subst htr
        simp at he
        subst he
        exact Or.inl rfl
      | non200 code =>
        rw [hr] at heq
        cases hi : get_secure_link_api resp req (attempt + 1) f with
        | none => rw [hi] at heq; simp at heq
        | some res =>
          obtain ⟨tr2, a2, out2⟩ := res
          rw [hi] at heq
          simp only [Option.some.injEq, Prod.mk.injEq] at heq
          rcases heq with ⟨htr, _, _⟩
          subst htr
          rcases List.mem_cons.mp he with h1 | h2
          · exact Or.inl h1
          · rcases List.mem_cons.mp h2 with h3 | h4
            · exact Or.inr h3
            · exact ih (attempt + 1) tr2 a2 out2 hi h4
      | exn =>
        rw [hr] at heq
        cases hi : get_secure_link_api resp req (attempt + 1) f with
        | none => rw [hi] at heq; simp at heq
        | some res =>
          obtain ⟨tr2, a2, out2⟩ := res
          rw [hi] at heq
          simp only [Option.some.injEq, Prod.mk.injEq] at heq
          rcases heq with ⟨htr, _, _⟩
          subst htr
          rcases List.mem_cons.mp he with h1 | h2
          · exact Or.inl h1
          · rcases List.mem_cons.mp h2 with h3 | h4
            · exact Or.inr h3
            · exact ih (attempt + 1) tr2 a2 out2 hi h4
  · intro resp req attempt fuel tr a out heq
    induction fuel generalizing attempt tr a out with
    | zero => simp [get_secure_link_api] at heq
    | succ f ih =>
      unfold get_secure_link_api at heq
      cases hr : resp attempt with
      | ok urls =>
        rw [hr] at heq
        simp only [Option.some.injEq, Prod.mk.injEq] at heq
        exact ⟨urls, heq.2.2.symm⟩
      | non200 code =>
        rw [hr] at heq
        cases hi : get_secure_link_api resp req (attempt + 1) f with
        | none => rw [hi] at heq; simp at heq
        | some res =>
          obtain ⟨tr2, a2, out2⟩ := res
          rw [hi] at heq
          simp only [Option.some.injEq, Prod.mk.injEq] at heq
          rcases ih (attempt + 1) tr2 a2 out2 hi with ⟨urls, hu⟩
          exact ⟨urls, heq.2.2.symm.trans hu⟩
      | exn =>
        rw [hr] at heq
        cases hi : get_secure_link_api resp req (attempt + 1) f with
        | none => rw [hi] at heq; simp at heq
        | some res =>
          obtain ⟨tr2, a2, out2⟩ := res
          rw [hi] at heq
          simp only [Option.some.injEq, Prod.mk.injEq] at heq
          rcases ih (attempt + 1) tr2 a2 out2 hi with ⟨urls, hu⟩
          exact ⟨urls, heq.2.2.symm.trans hu⟩
  · intro resp req h fuel hfuel
    obtain ⟨f, rfl⟩ : ∃ f, fuel = (f + 1) + 1 := ⟨fuel - 2, by omega⟩
    have hinner : ∀ attempt, get_secure_link_dl resp req false attempt (f + 1)
        = some ([SLEvent.request (secureLinkUrl req)], attempt + 1, none) := by
      intro attempt
      unfold get_secure_link_dl
      cases hr : resp attempt with
      | ok urls => exact absurd hr (h attempt urls)
      | non200 code => simp
      | exn => simp
    unfold get_secure_link_dl
    cases hr0 : resp 0 with
    | ok urls => exact absurd hr0 (h 0 urls)
    | non200 code =>
      refine ⟨[SLEvent.request (secureLinkUrl req), SLEvent.sleepMs 200,
               SLEvent.request (secureLinkUrl req), SLEvent.sleepMs 200,
               SLEvent.request (secureLinkUrl req)], 3, ?_, by omega⟩
      simp [hinner]
    | exn =>
      refine ⟨[SLEvent.request (secureLinkUrl req), SLEvent.sleepMs 200,
               SLEvent.request (secureLinkUrl req)], 2, ?_, by omega⟩
      simp [hinner]

/-- Witness for C5 (amended) at concrete inputs: the always-500 server
makes the api-handler variant spin forever (no fuel returns), a run that
succeeds on the third attempt has a trace of requests to the one URL
separated by 200 ms sleeps and a successful outcome, and the dl_utils
variant crashes within three attempts. -/
theorem c5_secure_link_retry_amended_witness :
    get_secure_link_api c5resp c5req 0 30 = none ∧
    (SLEvent.sleepMs 200 = SLEvent.request (secureLinkUrl c5req) ∨
      SLEvent.sleepMs 200 = SLEvent.sleepMs 200) ∧
    (∃ urls, (some ["https://cdn.example"] : Option (List String)) = some urls) ∧
    (∃ tr a, get_secure_link_dl c5resp c5req true 0 5 = some (tr, a, none) ∧ a ≤ 3) := by
  have hfail : ∀ i urls, c5resp i ≠ SLResp.ok urls := fun i urls => by simp [c5resp]
  refine ⟨?_, ?_, ?_, ?_⟩
  · exact c5_secure_link_retry_amended.1 c5resp c5req hfail 0 30
  · exact c5_secure_link_retry_amended.2.1 c5wresp c5req 0 10
      [SLEvent.request (secureLinkUrl c5req), SLEvent.sleepMs 200,
       SLEvent.request (secureLinkUrl c5req), SLEvent.sleepMs 200,
       SLEvent.request (secureLinkUrl c5req)] 3
      (some ["https://cdn.example"]) (by decide) (SLEvent.sleepMs 200) (by decide)
  · exact c5_secure_link_retry_amended.2.2.1 c5wresp c5req 0 10
      [SLEvent.request (secureLinkUrl c5req), SLEvent.sleepMs 200,
       SLEvent.request (secureLinkUrl c5req), SLEvent.sleepMs 200,
       SLEvent.request (secureLinkUrl c5req)] 3
      (some ["https://cdn.example"]) (by decide)
  · exact c5_secure_link_retry_amended.2.2.2 c5resp c5req hfail 5 (by omega)

/-! ## Claim C6: failure isolation -/

/-- C6: within a well-formed depot, every item is processed through the
caught file body — a single file's failure produces an empty effect list
for that file but never stops the depot or its sibling files (the result
is `ok` whatever the bodies do, and siblings before and after a failing
file keep their own effects); a depot whose file-manifest fetch raised
is an error; and a run fails exactly when some depot's manifest fetch
failed. -/
theorem c6_failure_isolation {χ : Type} (fileBody : FileInfo χ → Except String (List FsOp)) :
    (∀ items : List (FileInfo χ),
      downloadDepot fileBody (.wellFormed items)
        = .ok (items.map (runFileCaught fileBody))) ∧
    (∀ (l1 l2 : List (FileInfo χ)) (fbad : FileInfo χ) (err : String),
      fileBody fbad = .error err →
      downloadDepot fileBody (.wellFormed (l1 ++ fbad :: l2))
        = .ok (l1.map (runFileCaught fileBody)
            ++ [] :: l2.map (runFileCaught fileBody))) ∧
    (downloadDepot fileBody .fetchFailed = Except.error "Failed to download depot") ∧
    (∀ depots : List (DepotFetch χ), DepotFetch.fetchFailed ∈ depots →
      ∀ v, downloadAllDepots fileBody depots ≠ .ok v) ∧
    (∀ depots : List (DepotFetch χ), DepotFetch.fetchFailed ∉ depots →
      ∃ v, downloadAllDepots fileBody depots = .ok v) := by
  refine ⟨fun items => rfl, ?_, rfl, ?_, ?_⟩
  · intro l1 l2 fbad err herr
    simp [downloadDepot, runFileCaught, herr]
  · intro depots hmem v
    induction depots generalizing v with
    | nil => simp at hmem
    | cons d rest ih =>
      rcases List.mem_cons.mp hmem with h1 | h2
      · subst h1
        intro hok
        simp [downloadAllDepots, downloadDepot] at hok
      · intro hok
        unfold downloadAllDepots at hok
        cases hd : downloadDepot fileBody d with
        | error e => rw [hd] at hok; simp at hok
        | ok ops =>
          rw [hd] at hok
          cases hrest : downloadAllDepots fileBody rest with
          | error e => rw [hrest] at hok; simp at hok
          | ok others => exact ih h2 others hrest
  · intro depots hmem
    induction depots with
    | nil => exact ⟨[], rfl⟩
    | cons d rest ih =>
      have hd : d ≠ DepotFetch.fetchFailed := fun hh => hmem (by simp [hh])
      have hrest := ih (fun hh => hmem (by simp [hh]))
      rcases hrest with ⟨v, hv⟩
      cases d with
      | noUrl => exact ⟨[] :: v, by simp [downloadAllDepots, downloadDepot, hv]⟩
      | fetchFailed => exact absurd rfl hd
      | malformedStructure => exact ⟨[] :: v, by simp [downloadAllDepots, downloadDepot, hv]⟩
      | wellFormed items =>
        exact ⟨items.map (runFileCaught fileBody) :: v,
          by simp [downloadAllDepots, downloadDepot, hv]⟩

/-- Witness for C6 at concrete inputs: a depot with a failing middle file
still succeeds with the siblings' effects; a run containing a failed
depot-manifest fetch is not `ok`; a run without one is `ok`. -/
theorem c6_failure_isolation_witness :
    (downloadDepot c6body (DepotFetch.wellFormed ([c6good] ++ c6bad :: [c6good]))
      = .ok ([c6good].map (runFileCaught c6body)
          ++ [] :: [c6good].map (runFileCaught c6body))) ∧
    ([c6good].map (runFileCaught c6body) ++ [] :: [c6good].map (runFileCaught c6body)
      = [[FsOp.write "ok.bin" [1]], [], [FsOp.write "ok.bin" [1]]]) ∧
    downloadAllDepots c6body [DepotFetch.fetchFailed] ≠ .ok [] ∧
    (∃ v, downloadAllDepots c6body [DepotFetch.noUrl] = .ok v) := by
  refine ⟨(c6_failure_isolation c6body).2.1 [c6good] [c6good] c6bad "boom" rfl,
    by rfl,
    (c6_failure_isolation c6body).2.2.2.1 [DepotFetch.fetchFailed] (by simp) [],
    (c6_failure_isolation c6body).2.2.2.2 [DepotFetch.noUrl] (by simp)⟩

/-! ## Claim C9: no bearer token on CDN chunk requests -/

/-- C9: the headers of a CDN chunk request are identical for any two
manager states — in particular for any two values of the catalog
session's access token — and contain no Authorization header at all;
the catalog session itself does carry the bearer token, so the
independence is not vacuous. -/
theorem c9_cdn_no_auth_header (s1 s2 : ManagerState) :
    cdnChunkHeaders s1 = cdnChunkHeaders s2 ∧
    (∀ kv ∈ cdnChunkHeaders s1, kv.1 ≠ "Authorization") ∧
    (∀ t, ("Authorization", "Bearer " ++ t) ∈ apiSessionHeaders (some t)) := by
  refine ⟨rfl, ?_, ?_⟩
  · intro kv hkv
    simp only [cdnChunkHeaders, List.mem_singleton] at hkv
    subst hkv
    decide
  · intro t
    simp [apiSessionHeaders]

/-- Witness for C9 at two concrete tokens. -/
theorem c9_cdn_no_auth_header_witness :
    cdnChunkHeaders ⟨some "tokenA"⟩ = cdnChunkHeaders ⟨some "tokenB"⟩ ∧
    ("Authorization", "Bearer " ++ "tokenA") ∈ apiSessionHeaders (some "tokenA") := by
  have h := c9_cdn_no_auth_header ⟨some "tokenA"⟩ ⟨some "tokenB"⟩
  exact ⟨h.1, h.2.2 "tokenA"⟩

/-! ## Claim C10: empty bytes as the in-band failure signal -/

/-- Helper: when no endpoint of the list answers HTTP 200, the walk
returns the empty byte string. -/
theorem tryDownload_all_fail (decomp : Bytes → Option Bytes)
    (fetch : Endpoint → Option HttpResponse) (links : List Endpoint)
    (h : ∀ e ∈ links, (fetch e).map HttpResponse.status ≠ some 200) :
    (tryDownloadChunkWithLinks decomp fetch links).2 = [] := by
  induction links with
  | nil => rfl
  | cons e rest ih =>
    have hrest := ih (fun x hx => h x (by simp [hx]))
    unfold tryDownloadChunkWithLinks
    by_cases hu : e.isUnknownDict
    · simpa [hu] using hrest
    · simp only [hu, Bool.false_eq_true, if_false]
      cases hf : fetch e with
      | none => simpa using hrest
      | some resp =>
        have hs : resp.status ≠ 200 := by
          have := h e (by simp)
          rw [hf] at this
          simpa using this
        simp [hs, hrest]

/-- C10: chunk-fetch failure is signalled in-band as the empty byte
string: when no endpoint answers 200, both the per-list walk and the
composed `_download_chunk` return `b''` rather than raising; any file
containing a chunk whose result is empty is abandoned with no write; and
a chunk whose correct decompressed content is zero bytes is
indistinguishable from an unavailable one — a 200 answer inflating to
zero bytes produces the same `b''` as an all-404 endpoint list. -/
theorem c10_empty_bytes_failure_signal :
    (∀ (decomp : Bytes → Option Bytes) (fetch : Endpoint → Option HttpResponse)
        (links : List Endpoint),
      (∀ e ∈ links, (fetch e).map HttpResponse.status ≠ some 200) →
      (tryDownloadChunkWithLinks decomp fetch links).2 = []) ∧
    (∀ (decomp : Bytes → Option Bytes) (fetch : Endpoint → Option HttpResponse)
        (chunk_md5 : String) (gen2 gen1 : List Endpoint),
      (∀ e ∈ gen2, (fetch e).map HttpResponse.status ≠ some 200) →
      (∀ e ∈ gen1, (fetch e).map HttpResponse.status ≠ some 200) →
      (downloadChunk decomp fetch chunk_md5 gen2 gen1).2 = []) ∧
    (∀ (χ : Type) (install_path : String) (fetch : χ → Bytes) (f : FileInfo χ)
        (c : χ), c ∈ f.chunks → fetch c = [] →
      ∀ p d, FsOp.write p d ∉ downloadFile none install_path fetch f) ∧
    ((downloadChunk c10decomp c10fetch "aa" [c10e200] []).2 = [] ∧
     (downloadChunk c10decomp c10fetch "aa" [c10e404] []).2 = [] ∧
     processContent c10decomp [5] = [] ∧
     c10fetch c10e200 = some ⟨200, [5]⟩) := by
  refine ⟨tryDownload_all_fail, ?_, ?_, by decide, by decide, by decide, by decide⟩
  · intro decomp fetch chunk_md5 gen2 gen1 h2 h1
    unfold downloadChunk
    by_cases hm : chunk_md5 = ""
    · simp [hm]
    · have e2 : (if gen2 = [] then (([], []) : List Endpoint × Bytes)
          else tryDownloadChunkWithLinks decomp fetch gen2).2 = [] := by
        by_cases hg : gen2 = []
        · simp [hg]
        · simpa [hg] using tryDownload_all_fail decomp fetch gen2 h2
      have e1 : (if gen1 = [] then (([], []) : List Endpoint × Bytes)
          else tryDownloadChunkWithLinks decomp fetch gen1).2 = [] := by
        by_cases hg : gen1 = []
        · simp [hg]
        · simpa [hg] using tryDownload_all_fail decomp fetch gen1 h1
      simp [hm, e2, e1]
  · intro χ install_path fetch f c hc hfc p d hmem
    unfold downloadFile at hmem
    by_cases hp : f.path = ""
    · rw [if_pos hp] at hmem; simp at hmem
    · rw [if_neg hp] at hmem
      have hne : f.chunks ≠ [] := by
        intro hnil; rw [hnil] at hc; simp at hc
      rcases List.exists_cons_of_ne_nil hne with ⟨c0, cs, hcs⟩
      rw [assembleChunks_failed fetch f.chunks ⟨c, hc, hfc⟩] at hmem
      simp [patternExcludes, hcs] at hmem

/-- Witness for C10 at concrete inputs. -/
theorem c10_empty_bytes_failure_signal_witness :
    (tryDownloadChunkWithLinks c10decomp c10fetch [c10e404]).2 = [] ∧
    (downloadChunk c10decomp c10fetch "aa" [c10e404] [c10e404]).2 = [] ∧
    FsOp.write "/g/z.bin" [] ∉ downloadFile none "/g" c10cfetch c10file := by
  have h404 : ∀ e ∈ [c10e404], (c10fetch e).map HttpResponse.status ≠ some 200 := by
    intro e he
    have he2 : e = c10e404 := by simpa using he
    subst he2
    have : c10fetch c10e404 = some ⟨404, []⟩ := rfl
    rw [this]
    simp
  refine ⟨?_, ?_, ?_⟩
  · exact c10_empty_bytes_failure_signal.1 c10decomp c10fetch [c10e404] h404
  · exact c10_empty_bytes_failure_signal.2.1 c10decomp c10fetch "aa"
      [c10e404] [c10e404] h404 h404
  · exact c10_empty_bytes_failure_signal.2.2.1 Nat "/g" c10cfetch c10file 0
      (by decide) rfl "/g/z.bin" []

/-! ## Claim C7: sharding rule -/

/-- C7: for every content hash without a `/`, `galaxy_path h` equals
`h[0:2] ++ "/" ++ h[2:4] ++ "/" ++ h`; for every hash already containing a
`/`, `galaxy_path h = h` unchanged.  The function is a total Lean `def`,
so it is pure and defined on every string. -/
theorem c7_galaxy_path_shard (h : String) :
    (h.data.contains '/' = false →
      galaxy_path h = pySlice h 0 2 ++ "/" ++ pySlice h 2 4 ++ "/" ++ h) ∧
    (h.data.contains '/' = true → galaxy_path h = h) := by
  constructor <;> intro hc <;> unfold galaxy_path <;> rw [hc] <;> rfl

/-- Witness for C7 at concrete inputs, discharging each hypothesis. -/
theorem c7_galaxy_path_shard_witness :
    galaxy_path "abcdef12" = "ab/cd/abcdef12" ∧ galaxy_path "ab/cd" = "ab/cd" := by
  constructor
  · rw [(c7_galaxy_path_shard "abcdef12").1 (by decide)]; decide
  · exact (c7_galaxy_path_shard "ab/cd").2 (by decide)

/-! ## Claim C8: template-shaped chunk URL construction -/

/-- C8: for the non-akamai endpoint `{url_format: "https://cdn/\x7bpath\x7d",
parameters: {path: "/base"}}` and hash `abcdef12`, the join rule produces the
path parameter `/base/ab/cd/abcdef12`, and substitution yields exactly
`https://cdn//base/ab/cd/abcdef12` with the double slash preserved. -/
theorem c8_template_chunk_url :
    updatePathOther [("path", "/base")] (galaxy_path "abcdef12")
        = [("path", "/base/ab/cd/abcdef12")] ∧
    buildTemplateChunkUrl none "https://cdn/\x7bpath\x7d" [("path", "/base")] "abcdef12"
        = "https://cdn//base/ab/cd/abcdef12" := by
  constructor
  · decide
  · decide

end Gogdl
